import Mathlib

/-!
Verification of the TOT (tree-of-thought) experiment core: the `Agent`
search/evaluation state machine of `tot/agent.py` and the best-solution
reporting of `backend/services/experiment_service.py`, over a shallow
embedding.  Python floats are modelled as rationals; the JSON-decoded
values appearing in the structured review response are modelled by the
`PyVal` type, with Python truthiness made explicit.  The generative
backend, the execution sandbox and the random draws are injected as
explicit parameters, matching the spec's requirement that the policy be
a pure function of journal state plus the random source.
-/

/-- Model of a JSON-decoded Python value as it can appear in a field of the
structured review response (`json.loads` output in `backend_litellm.query`):
`None`, a bool, an int, a float, or a string. -/
inductive PyVal where
  | none
  | bool (b : Bool)
  | int (n : Int)
  | float (q : ℚ)
  | str (s : String)
  deriving DecidableEq

/-- Python truthiness of a `PyVal`, as used by `or` / `not` / `if` in
`Agent.parse_exec_result`. -/
def PyVal.truthy : PyVal → Bool
  | .none => false
  | .bool b => b
  | .int n => n != 0
  | .float q => q != 0
  | .str s => s != ""

/-- Modelled from the spec: `MetricValue` / `WorstMetricValue` of
`tot/utils/metric.py` (not among the sources).  Per spec section 3 and the
section 9 design note, a tagged variant: an ordinary metric carries a
nullable value and a `maximize` polarity; `worst` is the `WorstMetricValue`
sentinel (null value, loses every comparison). -/
inductive MetricValue where
  | ordinary (value : Option ℚ) (maximize : Bool)
  | worst
  deriving DecidableEq

/-- Modelled from the spec: the "is better than" comparison of section 4.1.
`worst` loses every comparison; a null-valued ordinary metric is treated as
absent (never ranks above anything, and anything valued ranks above it); two
valued ordinary metrics compare under the left argument's own polarity. -/
def MetricValue.betterThan : MetricValue → MetricValue → Bool
  | .worst, _ => false
  | .ordinary Option.none _, _ => false
  | .ordinary (some _) _, .worst => true
  | .ordinary (some _) _, .ordinary Option.none _ => true
  | .ordinary (some a) mx, .ordinary (some b) _ => if mx then b < a else a < b

/-- Comparison lifted to the nullable `metric` slot of a node (a node that
has not been reviewed yet has no metric; an absent metric never wins). -/
def metricBetter : Option MetricValue → Option MetricValue → Bool
  | Option.none, _ => false
  | some _, Option.none => true
  | some a, some b => a.betterThan b

/-- Modelled from the spec: the execution telemetry returned by the sandbox
(`tot/interpreter.py` is not among the sources); spec section 6: terminal
output, duration, optional exception type/message. -/
structure ExecutionResult where
  term_out : String
  exec_time : ℚ
  exc_type : Option String
  exc_info : Option String
  deriving DecidableEq

/-- Modelled from the spec: one `Node` of `tot/journal.py` (not among the
sources), per spec section 3: identity, plan/code, parent link (by id),
debug depth, execution telemetry, review telemetry. -/
structure Node where
  id : Nat
  step : Nat
  plan : String
  code : String
  parent : Option Nat
  debug_depth : Nat
  term_out : String
  exec_time : ℚ
  exc_type : Option String
  exc_info : Option String
  analysis : PyVal
  is_buggy : Bool
  metric : Option MetricValue
  deriving DecidableEq

/-- Modelled from the spec: `Node.absorb_exec_result` — the node absorbs the
raw execution telemetry unconditionally (spec section 4.5). -/
def Node.absorb_exec_result (n : Node) (er : ExecutionResult) : Node :=
  { n with
    term_out := er.term_out
    exec_time := er.exec_time
    exc_type := er.exc_type
    exc_info := er.exc_info }

/-- Modelled from the spec: the `Journal` of `tot/journal.py` (not among the
sources) — the append-only list of nodes in creation order. -/
structure Journal where
  nodes : List Node
  deriving DecidableEq

/-- Modelled from the spec: `Journal.append` inserts the node and assigns it
the next step index (spec section 4.2). -/
def Journal.append (j : Journal) (n : Node) : Journal :=
  { nodes := j.nodes ++ [{ n with step := j.nodes.length }] }

/-- Modelled from the spec: `draft_nodes` — nodes with no parent. -/
def Journal.draft_nodes (j : Journal) : List Node :=
  j.nodes.filter (fun n => n.parent.isNone)

/-- Modelled from the spec: `buggy_nodes` — nodes where `is_buggy` is true. -/
def Journal.buggy_nodes (j : Journal) : List Node :=
  j.nodes.filter (fun n => n.is_buggy)

/-- Modelled from the spec: `good_nodes` — nodes where `is_buggy` is false. -/
def Journal.good_nodes (j : Journal) : List Node :=
  j.nodes.filter (fun n => !n.is_buggy)

/-- Modelled from the spec: `Node.is_leaf` — no node of the journal
references this node as its parent (spec section 3, derived view). -/
def Journal.is_leaf (j : Journal) (n : Node) : Bool :=
  j.nodes.all (fun m => m.parent != some n.id)

/-- One folding step of the best-node scan: a strictly better candidate
replaces the current best, so ties resolve to the earliest step. -/
def bestStep (best : Option Node) (n : Node) : Option Node :=
  match best with
  | Option.none => some n
  | some b => if metricBetter n.metric b.metric then some n else some b

/-- Modelled from the spec: `Journal.get_best_node(only_good)` — among the
candidate set (good nodes if `only_good`, else all nodes), the node whose
metric is best, ties broken by earliest step (first found wins); null on an
empty candidate set (spec section 4.2). -/
def Journal.get_best_node (j : Journal) (only_good : Bool) : Option Node :=
  (if only_good then j.good_nodes else j.nodes).foldl bestStep Option.none

/-- Search configuration of `Agent.search_policy` (`cfg.agent.search`). -/
structure SearchConfig where
  num_drafts : Nat
  debug_prob : ℚ
  max_debug_depth : Nat
  deriving DecidableEq

/-- The debuggable candidate set of `Agent.search_policy`
(`tot/agent.py` lines 115-119): buggy nodes that are leaves and whose
debug depth does not exceed `max_debug_depth`. -/
def Agent.debuggable_nodes (j : Journal) (cfg : SearchConfig) : List Node :=
  j.buggy_nodes.filter
    (fun n => j.is_leaf n && decide (n.debug_depth ≤ cfg.max_debug_depth))

/-- `Agent.search_policy` (`tot/agent.py` lines 98-134).  The random draw
`rand` stands for `random.random()` and `choice` indexes the uniform
`random.choice` over the debuggable candidates.  Returns `none` to draft. -/
def Agent.search_policy (j : Journal) (cfg : SearchConfig) (rand : ℚ)
    (choice : Nat) : Option Node :=
  if j.draft_nodes.length < cfg.num_drafts then
    Option.none
  else
    let afterDebug : Option Node :=
      if rand < cfg.debug_prob then
        let dbg := Agent.debuggable_nodes j cfg
        dbg.get? (choice % dbg.length)
      else Option.none
    match afterDebug with
    | some n => some n
    | Option.none =>
      if j.good_nodes.isEmpty then Option.none
      else j.get_best_node false

/-- Extraction success test of `Agent.plan_and_code_query`
(`if code and nl_text`): both extracted strings are non-empty.  `ec` models
`extract_code` and `et` models `extract_text_up_to_code` (from
`tot/utils/response.py`, not among the sources; per the spec they yield the
code block and the natural-language plan, possibly empty on failure). -/
def extraction_ok (ec et : String → String) (txt : String) : Bool :=
  ec txt != "" && et txt != ""

/-- The retry loop body of `Agent.plan_and_code_query`: attempt index `i`,
remaining `fuel` attempts, and the last completion text seen. -/
def Agent.pacqGo (ec et : String → String) (oracle : Nat → String) :
    Nat → Nat → Option String → String × String
  | _, 0, last => ("", last.getD "")
  | i, fuel + 1, _ =>
    let txt := oracle i
    if extraction_ok ec et txt then (et txt, ec txt)
    else Agent.pacqGo ec et oracle (i + 1) fuel (some txt)

/-- `Agent.plan_and_code_query` (`tot/agent.py` lines 176-206): query the
backend with the same prompt up to `retries` times (`oracle i` is the i-th
completion); return `(plan, code)` on the first successful extraction, and
`("", last completion)` after exhausting the attempts. -/
def Agent.plan_and_code_query (ec et : String → String) (oracle : Nat → String)
    (retries : Nat) : String × String :=
  Agent.pacqGo ec et oracle 0 retries Option.none

/-- The review backend response seen by `Agent.parse_exec_result`: either
not a well-formed dict, or a dict whose relevant keys (`is_bug`, `metric`,
`summary`, `lower_is_better`) are each absent or bound to a `PyVal`. -/
structure ReviewResponse where
  is_bug : Option PyVal
  metric : Option PyVal
  summary : Option PyVal
  lower_is_better : Option PyVal
  deriving DecidableEq

/-- Either a well-formed dict response or anything else (e.g. a plain
string completion), as distinguished by `isinstance(response, dict)`. -/
inductive ReviewResult where
  | invalid
  | valid (r : ReviewResponse)
  deriving DecidableEq

/-- The metric coercion of `Agent.parse_exec_result` lines 380-382: if the
declared metric is not a Python float instance it is set to `None`; the
surviving value is the float. -/
def coerceMetric : Option PyVal → Option ℚ
  | some (.float q) => some q
  | _ => Option.none

/-- `Agent.parse_exec_result` (`tot/agent.py` lines 339-397): absorb the
execution telemetry, then classify from the structured review response.
A non-dict response forces buggy with a worst metric and a fixed analysis
string; otherwise the metric is coerced, `is_buggy` is the OR of the three
fault signals, and the metric becomes worst (buggy) or an ordinary value
with `maximize = not lower_is_better` (not buggy). -/
def Agent.parse_exec_result (node : Node) (er : ExecutionResult)
    (response : ReviewResult) : Node :=
  let node := node.absorb_exec_result er
  match response with
  | .invalid =>
    { node with
      analysis := .str "Error: Invalid API response received. Unable to parse execution results."
      is_buggy := true
      metric := some .worst }
  | .valid r =>
    let metric := coerceMetric r.metric
    let buggy := (r.is_bug.getD (.bool false)).truthy
      || node.exc_type.isSome || metric.isNone
    { node with
      analysis := r.summary.getD (.str "No summary provided")
      is_buggy := buggy
      metric := if buggy then some .worst
        else some (.ordinary metric (!(r.lower_is_better.getD (.bool true)).truthy)) }

/-- Modelled from the spec: construction of a new `Node` (spec sections 3
and 4.4) — plan, code, optional parent; `debug_depth` is 0 for drafts and
improvements and parent's depth + 1 for a debug attempt. -/
def mkNode (plan code : String) (parent : Option Node) (fresh : Nat) : Node :=
  { id := fresh
    step := 0
    plan := plan
    code := code
    parent := parent.map (fun p => p.id)
    debug_depth :=
      match parent with
      | Option.none => 0
      | some p => if p.is_buggy then p.debug_depth + 1 else 0
    term_out := ""
    exec_time := 0
    exc_type := Option.none
    exc_info := Option.none
    analysis := PyVal.none
    is_buggy := false
    metric := Option.none }

/-- `Agent.step` (`tot/agent.py` lines 306-337): select a parent via the
search policy, generate plan and code, build the node (draft when no
parent, debug when the parent is buggy, improve otherwise), execute,
parse the execution result, and append the node to the journal.  The
backend completions, extraction functions, execution callback, review
response and random draws are injected. -/
def Agent.step (j : Journal) (cfg : SearchConfig) (rand : ℚ) (choice : Nat)
    (ec et : String → String) (oracle : Nat → String)
    (execCb : String → ExecutionResult) (review : ReviewResult)
    (fresh : Nat) : Journal :=
  let parent := Agent.search_policy j cfg rand choice
  let pc := Agent.plan_and_code_query ec et oracle 3
  let node := mkNode pc.1 pc.2 parent fresh
  let node := Agent.parse_exec_result node (execCb node.code) review
  j.append node

/-- The best-node fallback of `ExperimentService.run_experiment_async`
(`backend/services/experiment_service.py` lines 262-270): take the best
good node; when there is none and the journal is non-empty, fall back to
the journal's first node. -/
def ExperimentService.best_node (j : Journal) : Option Node :=
  match j.get_best_node true with
  | some n => some n
  | Option.none => if j.nodes.isEmpty then Option.none else j.nodes.head?

/-- `best_solution_code` of `ExperimentService.run_experiment_async`
(line 272): the chosen node's code, or null when there is no node. -/
def ExperimentService.best_solution_code (j : Journal) : Option String :=
  (ExperimentService.best_node j).map (fun n => n.code)

/-- `best_metric_value` of `ExperimentService.run_experiment_async`
(line 273): the chosen node's metric value when the node, its metric and
the metric's value all exist, else null. -/
def ExperimentService.best_metric_value (j : Journal) : Option ℚ :=
  match ExperimentService.best_node j with
  | some n =>
    match n.metric with
    | some (.ordinary (some v) _) => some v
    | _ => Option.none
  | Option.none => Option.none

/-- A sample node used by concrete witnesses below. -/
def baseNode : Node :=
  { id := 0
    step := 0
    plan := ""
    code := "print(1)"
    parent := Option.none
    debug_depth := 0
    term_out := ""
    exec_time := 0
    exc_type := Option.none
    exc_info := Option.none
    analysis := PyVal.none
    is_buggy := false
    metric := Option.none }

/-- Journal used by the C5 witness: one buggy child and one good child of a
missing draft, so it has no draft nodes at all. -/
def c5Journal : Journal :=
  Journal.mk
    [{ baseNode with id := 1, parent := some 9, is_buggy := true, metric := some .worst },
     { baseNode with id := 2, parent := some 9, metric := some (.ordinary (some 1) true) }]

/-- Journal used by the C10 witness: a single buggy draft whose metric is
the worst sentinel (null value). -/
def c10Journal : Journal :=
  Journal.mk [{ baseNode with is_buggy := true, metric := some .worst }]

/-- Journal used by the C6 witness: two buggy leaves, one at debug depth 0
and one at debug depth 1. -/
def c6Journal : Journal :=
  Journal.mk
    [{ baseNode with id := 1, is_buggy := true, metric := some .worst },
     { baseNode with id := 2, is_buggy := true, metric := some .worst, debug_depth := 1 }]

/-- Evaluated (non-null) good metric with the given shared polarity: the
shape `Agent.parse_exec_result` gives every non-buggy node. -/
def goodValuedB (mx : Bool) (n : Node) : Bool :=
  match n.metric with
  | some (.ordinary (some _) mx2) => mx2 == mx
  | _ => false

/-- Rank of a node's metric under the shared polarity `mx`: worst or absent
metrics rank bottom, an evaluated metric ranks by its (sign-adjusted)
value, so that "is better" coincides with strictly greater rank. -/
def nodeRank (mx : Bool) (n : Node) : WithBot ℚ :=
  match n.metric with
  | some (.ordinary (some q) _) => ((if mx then q else -q : ℚ) : WithBot ℚ)
  | _ => ⊥

/-- Journal used by the C7 witness: good drafts with metrics 8 and 6
(maximize) and one buggy draft with the worst metric. -/
def c7Journal : Journal :=
  Journal.mk
    [{ baseNode with id := 1, step := 0, metric := some (.ordinary (some 8) true) },
     { baseNode with id := 2, step := 1, metric := some (.ordinary (some 6) true) },
     { baseNode with id := 3, step := 2, is_buggy := true, metric := some .worst }]

/-- C1: for a well-formed (dict) review response, `is_buggy` is set exactly
when the review flags a bug, or the telemetry recorded an exception, or the
coerced metric is null; in particular an exception forces buggy even when
the review claims `is_bug=false` with a numeric metric. -/
theorem parse_buggy_iff_three_signals (node : Node) (er : ExecutionResult)
    (r : ReviewResponse) :
    ((Agent.parse_exec_result node er (.valid r)).is_buggy = true ↔
      ((r.is_bug.getD (.bool false)).truthy = true ∨ er.exc_type ≠ Option.none ∨
        coerceMetric r.metric = Option.none))
    ∧ (er.exc_type ≠ Option.none → r.is_bug = some (.bool false) →
        (∃ q : ℚ, r.metric = some (.float q)) →
        (Agent.parse_exec_result node er (.valid r)).is_buggy = true) := by
  constructor
  · simp [Agent.parse_exec_result, Node.absorb_exec_result, Bool.or_eq_true,
      Option.isSome_iff_ne_none, Option.isNone_iff_eq_none, or_assoc]
  · intro hexc hbug _
    simp [Agent.parse_exec_result, Node.absorb_exec_result, hbug, PyVal.truthy,
      Option.isSome_iff_ne_none, hexc]

/-- Witness for C1: a run that raised `ValueError` is marked buggy although
the review asserts `is_bug=false` and metric `1/2`. -/
theorem parse_buggy_iff_three_signals_witness :
    (Agent.parse_exec_result baseNode
      { term_out := "boom", exec_time := 1, exc_type := some "ValueError",
        exc_info := some "bad value" }
      (.valid { is_bug := some (.bool false), metric := some (.float (1/2)),
                summary := Option.none, lower_is_better := Option.none })).is_buggy
      = true :=
  (parse_buggy_iff_three_signals baseNode
    { term_out := "boom", exec_time := 1, exc_type := some "ValueError",
      exc_info := some "bad value" }
    { is_bug := some (.bool false), metric := some (.float (1/2)),
      summary := Option.none, lower_is_better := Option.none }).2
    (by simp) rfl ⟨1/2, rfl⟩

/-- Helper: in the dict branch, a buggy classification assigns the worst
metric. -/
theorem parse_buggy_metric_worst (node : Node) (er : ExecutionResult)
    (r : ReviewResponse)
    (h : (Agent.parse_exec_result node er (.valid r)).is_buggy = true) :
    (Agent.parse_exec_result node er (.valid r)).metric = some .worst := by
  simp only [Agent.parse_exec_result] at h ⊢
  rw [if_pos h]

/-- Helper: in the dict branch, a non-buggy classification assigns the
coerced metric with polarity `not lower_is_better`, and the coerced metric
necessarily carries a value. -/
theorem parse_good_metric_value (node : Node) (er : ExecutionResult)
    (r : ReviewResponse)
    (h : (Agent.parse_exec_result node er (.valid r)).is_buggy = false) :
    (Agent.parse_exec_result node er (.valid r)).metric =
      some (.ordinary (coerceMetric r.metric)
        (!(r.lower_is_better.getD (.bool true)).truthy))
    ∧ ∃ q : ℚ, coerceMetric r.metric = some q := by
  simp only [Agent.parse_exec_result] at h ⊢
  constructor
  · rw [if_neg (by simp [h])]
  · rcases hm : coerceMetric r.metric with _ | q
    · exfalso
      simp [hm, Bool.or_eq_true] at h
    · exact ⟨q, rfl⟩

/-- C2: for a dict review response, a buggy classification assigns the
`WorstMetricValue`, discarding any numeric metric; a non-buggy one assigns
an ordinary metric whose value is the review's coerced metric (necessarily
a number) and whose polarity is the negation of `lower_is_better`. -/
theorem parse_metric_assignment (node : Node) (er : ExecutionResult)
    (r : ReviewResponse) :
    ((Agent.parse_exec_result node er (.valid r)).is_buggy = true →
      (Agent.parse_exec_result node er (.valid r)).metric = some .worst)
    ∧ ((Agent.parse_exec_result node er (.valid r)).is_buggy = false →
      (Agent.parse_exec_result node er (.valid r)).metric =
        some (.ordinary (coerceMetric r.metric)
          (!(r.lower_is_better.getD (.bool true)).truthy))
      ∧ ∃ q : ℚ, coerceMetric r.metric = some q) :=
  ⟨fun h => parse_buggy_metric_worst node er r h,
   fun h => parse_good_metric_value node er r h⟩

/-- Witness for C2: a buggy verdict (is_bug true) yields the worst metric
even though metric `3/4` was supplied; a clean run with metric `3/4` and
`lower_is_better=false` yields an ordinary maximizing metric. -/
theorem parse_metric_assignment_witness :
    (Agent.parse_exec_result baseNode
      { term_out := "", exec_time := 0, exc_type := Option.none, exc_info := Option.none }
      (.valid { is_bug := some (.bool true), metric := some (.float (3/4)),
                summary := Option.none, lower_is_better := Option.none })).metric
      = some .worst
    ∧ (Agent.parse_exec_result baseNode
      { term_out := "", exec_time := 0, exc_type := Option.none, exc_info := Option.none }
      (.valid { is_bug := some (.bool false), metric := some (.float (3/4)),
                summary := Option.none, lower_is_better := some (.bool false) })).metric
      = some (.ordinary (some (3/4)) true) :=
  ⟨(parse_metric_assignment baseNode
      { term_out := "", exec_time := 0, exc_type := Option.none, exc_info := Option.none }
      { is_bug := some (.bool true), metric := some (.float (3/4)),
        summary := Option.none, lower_is_better := Option.none }).1 (by decide),
   by
    have h := (parse_metric_assignment baseNode
      { term_out := "", exec_time := 0, exc_type := Option.none, exc_info := Option.none }
      { is_bug := some (.bool false), metric := some (.float (3/4)),
        summary := Option.none, lower_is_better := some (.bool false) }).2 (by decide)
    simpa [coerceMetric, PyVal.truthy] using h.1⟩

/-- C3: an invalid (non-dict) review response marks the node buggy with a
worst metric and a fixed non-empty analysis string, processes nothing else
of that response (plan, code, parent, debug depth unchanged; telemetry is
exactly what was absorbed), and the node is still appended to the journal
by `Agent.step`. -/
theorem parse_invalid_response (node : Node) (er : ExecutionResult)
    (j : Journal) (cfg : SearchConfig) (rand : ℚ) (choice : Nat)
    (ec et : String → String) (oracle : Nat → String)
    (execCb : String → ExecutionResult) (fresh : Nat) :
    (Agent.parse_exec_result node er .invalid).is_buggy = true
    ∧ (Agent.parse_exec_result node er .invalid).metric = some .worst
    ∧ (∃ s : String, (Agent.parse_exec_result node er .invalid).analysis = .str s ∧ s ≠ "")
    ∧ (Agent.parse_exec_result node er .invalid).plan = node.plan
    ∧ (Agent.parse_exec_result node er .invalid).code = node.code
    ∧ (Agent.parse_exec_result node er .invalid).parent = node.parent
    ∧ (Agent.parse_exec_result node er .invalid).debug_depth = node.debug_depth
    ∧ (Agent.parse_exec_result node er .invalid).term_out = er.term_out
    ∧ (Agent.parse_exec_result node er .invalid).exc_type = er.exc_type
    ∧ (Agent.step j cfg rand choice ec et oracle execCb .invalid fresh).nodes.length
        = j.nodes.length + 1
    ∧ ∃ m : Node, (Agent.step j cfg rand choice ec et oracle execCb .invalid fresh).nodes
        = j.nodes ++ [m] ∧ m.is_buggy = true ∧ m.metric = some .worst
        ∧ ∃ s : String, m.analysis = .str s ∧ s ≠ "" := by
  refine ⟨rfl, rfl, ⟨_, rfl, by decide⟩, rfl, rfl, rfl, rfl, rfl, rfl, ?_, ?_⟩
  · simp [Agent.step, Journal.append]
  · exact ⟨_, rfl, rfl, rfl, ⟨_, rfl, by decide⟩⟩

/-- C4 counterexample: the review declares the numeric metric value 1 (a
JSON integer, hence a Python `int`, not a `float`); the coercion nulls it
and the node is classified buggy with the worst metric instead of retaining
the declared value — refuting "treated as absent exactly when not numeric". -/
theorem parse_int_metric_not_retained :
    coerceMetric (some (.int 1)) = Option.none
    ∧ (Agent.parse_exec_result baseNode
        { term_out := "ok", exec_time := 0, exc_type := Option.none,
          exc_info := Option.none }
        (.valid { is_bug := some (.bool false), metric := some (.int 1),
                  summary := Option.none, lower_is_better := Option.none })).is_buggy
        = true
    ∧ (Agent.parse_exec_result baseNode
        { term_out := "ok", exec_time := 0, exc_type := Option.none,
          exc_info := Option.none }
        (.valid { is_bug := some (.bool false), metric := some (.int 1),
                  summary := Option.none, lower_is_better := Option.none })).metric
        = some .worst := by
  refine ⟨rfl, ?_, ?_⟩ <;> rfl

/-- C4 amended: the declared metric is treated as absent exactly when it is
not a Python float value; a float metric is retained for the bugginess
decision and the metric assignment, while any non-float value — including
an integer-typed numeric value — is nulled, which by itself forces the
buggy classification and the worst metric. -/
theorem parse_metric_float_only (node : Node) (er : ExecutionResult)
    (r : ReviewResponse) :
    (∀ q : ℚ, r.metric = some (.float q) →
      (Agent.parse_exec_result node er (.valid r)).is_buggy =
        ((r.is_bug.getD (.bool false)).truthy || er.exc_type.isSome)
      ∧ ((Agent.parse_exec_result node er (.valid r)).is_buggy = false →
        (Agent.parse_exec_result node er (.valid r)).metric =
          some (.ordinary (some q) (!(r.lower_is_better.getD (.bool true)).truthy))))
    ∧ ((∀ q : ℚ, r.metric ≠ some (.float q)) →
      (Agent.parse_exec_result node er (.valid r)).is_buggy = true
      ∧ (Agent.parse_exec_result node er (.valid r)).metric = some .worst) := by
  constructor
  · intro q hq
    constructor
    · simp [Agent.parse_exec_result, Node.absorb_exec_result, hq, coerceMetric]
    · intro h
      have hgv := parse_good_metric_value node er r h
      rw [hgv.1, hq]
      simp [coerceMetric]
  · intro hq
    have hnone : coerceMetric r.metric = Option.none := by
      rcases hm : r.metric with _ | v
      · rfl
      · cases v with
        | float q => exact absurd hm (hq q)
        | none => rfl
        | bool b => rfl
        | int n => rfl
        | str s => rfl
    have hb : (Agent.parse_exec_result node er (.valid r)).is_buggy = true := by
      simp [Agent.parse_exec_result, Node.absorb_exec_result, hnone]
    exact ⟨hb, parse_buggy_metric_worst node er r hb⟩

/-- Witness for the amended C4: with a float metric `2/5` and no exception
the bugginess reduces to the review flag alone; with the integer metric 7
the node is forced buggy with a worst metric. -/
theorem parse_metric_float_only_witness :
    ((Agent.parse_exec_result baseNode
        { term_out := "", exec_time := 0, exc_type := Option.none,
          exc_info := Option.none }
        (.valid { is_bug := some (.bool false), metric := some (.float (2/5)),
                  summary := Option.none, lower_is_better := Option.none })).is_buggy
        = false)
    ∧ ((Agent.parse_exec_result baseNode
        { term_out := "", exec_time := 0, exc_type := Option.none,
          exc_info := Option.none }
        (.valid { is_bug := some (.bool false), metric := some (.int 7),
                  summary := Option.none, lower_is_better := Option.none })).is_buggy
        = true) := by
  constructor
  · have h := ((parse_metric_float_only baseNode
      { term_out := "", exec_time := 0, exc_type := Option.none,
        exc_info := Option.none }
      { is_bug := some (.bool false), metric := some (.float (2/5)),
        summary := Option.none, lower_is_better := Option.none }).1 (2/5) rfl).1
    simpa [PyVal.truthy] using h
  · exact ((parse_metric_float_only baseNode
      { term_out := "", exec_time := 0, exc_type := Option.none,
        exc_info := Option.none }
      { is_bug := some (.bool false), metric := some (.int 7),
        summary := Option.none, lower_is_better := Option.none }).2
      (by intro q h; cases h)).1

/-- C5: whenever the journal holds fewer draft nodes than `num_drafts`,
the search policy selects drafting (no parent), for every random draw and
every other journal content. -/
theorem search_policy_drafts_first (j : Journal) (cfg : SearchConfig)
    (rand : ℚ) (choice : Nat)
    (h : j.draft_nodes.length < cfg.num_drafts) :
    Agent.search_policy j cfg rand choice = Option.none := by
  simp [Agent.search_policy, h]

/-- Witness for C5: a journal holding one buggy leaf and one good node but
no drafts still drafts when `num_drafts = 2`, even with `debug_prob = 1`. -/
theorem search_policy_drafts_first_witness :
    Agent.search_policy c5Journal (SearchConfig.mk 2 1 0) 0 0 = Option.none :=
  search_policy_drafts_first _ _ 0 0 (by decide)

/-- C9: one call to `Agent.step` grows the journal by exactly one node,
appended at the end; every previously appended node is left in place
unchanged. -/
theorem step_appends_exactly_one (j : Journal) (cfg : SearchConfig)
    (rand : ℚ) (choice : Nat) (ec et : String → String)
    (oracle : Nat → String) (execCb : String → ExecutionResult)
    (review : ReviewResult) (fresh : Nat) :
    (Agent.step j cfg rand choice ec et oracle execCb review fresh).nodes.length
      = j.nodes.length + 1
    ∧ (Agent.step j cfg rand choice ec et oracle execCb review fresh).nodes.take
        j.nodes.length = j.nodes
    ∧ ∃ n : Node, (Agent.step j cfg rand choice ec et oracle execCb review fresh).nodes
        = j.nodes ++ [n] := by
  refine ⟨?_, ?_, ⟨_, rfl⟩⟩
  · simp [Agent.step, Journal.append]
  · simp [Agent.step, Journal.append, List.take_left]

/-- C10: when no good node exists but the journal is non-empty, the
experiment service publishes the journal's first node as best solution —
its code is reported even when the node is buggy, and the reported best
metric value is null whenever that node's metric carries no value. -/
theorem service_best_node_fallback (j : Journal)
    (h1 : j.get_best_node true = Option.none) (h2 : j.nodes ≠ []) :
    ExperimentService.best_node j = j.nodes.head?
    ∧ ExperimentService.best_solution_code j = j.nodes.head?.map (fun n => n.code)
    ∧ (∀ n : Node, j.nodes.head? = some n → n.is_buggy = true →
        ExperimentService.best_solution_code j = some n.code)
    ∧ (∀ n : Node, j.nodes.head? = some n →
        (∀ (v : ℚ) (mx : Bool), n.metric ≠ some (.ordinary (some v) mx)) →
        ExperimentService.best_metric_value j = Option.none) := by
  have hb : ExperimentService.best_node j = j.nodes.head? := by
    rw [ExperimentService.best_node, h1]
    simp [List.isEmpty_iff, h2]
  refine ⟨hb, ?_, ?_, ?_⟩
  · rw [ExperimentService.best_solution_code, hb]
  · intro n hn _
    rw [ExperimentService.best_solution_code, hb, hn]
    rfl
  · intro n hn hv
    rw [ExperimentService.best_metric_value, hb, hn]
    rcases hm : n.metric with _ | m
    · simp [hm]
    · cases m with
      | worst => simp [hm]
      | ordinary v mx =>
        cases v with
        | none => simp [hm]
        | some q => exact absurd hm (hv q mx)

/-- Witness for C10: with only one (buggy) node, the service falls back to
it: its code is published and the metric value reported as null. -/
theorem service_best_node_fallback_witness :
    ExperimentService.best_node c10Journal = c10Journal.nodes.head?
    ∧ ExperimentService.best_solution_code c10Journal
        = c10Journal.nodes.head?.map (fun n => n.code)
    ∧ (∀ n : Node, c10Journal.nodes.head? = some n → n.is_buggy = true →
        ExperimentService.best_solution_code c10Journal = some n.code)
    ∧ (∀ n : Node, c10Journal.nodes.head? = some n →
        (∀ (v : ℚ) (mx : Bool), n.metric ≠ some (.ordinary (some v) mx)) →
        ExperimentService.best_metric_value c10Journal = Option.none) :=
  service_best_node_fallback c10Journal (by decide) (by decide)

/-- C6: with enough drafts and the random draw below `debug_prob`, the
debuggable candidate set is exactly the buggy leaf nodes within the debug
depth bound (so depth 0 qualifies at bound 0 and depth 1 does not), and
when that set is non-empty the policy returns one of its members, for
every choice index. -/
theorem search_policy_debug_rule (j : Journal) (cfg : SearchConfig)
    (rand : ℚ) (choice : Nat)
    (h1 : cfg.num_drafts ≤ j.draft_nodes.length)
    (h2 : rand < cfg.debug_prob) :
    (∀ n : Node, n ∈ Agent.debuggable_nodes j cfg ↔
      (n ∈ j.nodes ∧ n.is_buggy = true ∧ j.is_leaf n = true ∧
        n.debug_depth ≤ cfg.max_debug_depth))
    ∧ (Agent.debuggable_nodes j cfg ≠ [] →
      ∃ n : Node, Agent.search_policy j cfg rand choice = some n ∧
        n ∈ Agent.debuggable_nodes j cfg) := by
  constructor
  · intro n
    simp only [Agent.debuggable_nodes, Journal.buggy_nodes, List.mem_filter,
      Bool.and_eq_true, decide_eq_true_eq]
    tauto
  · intro hne
    have hlen : 0 < (Agent.debuggable_nodes j cfg).length :=
      List.length_pos.mpr hne
    have hlt : choice % (Agent.debuggable_nodes j cfg).length
        < (Agent.debuggable_nodes j cfg).length := Nat.mod_lt _ hlen
    refine ⟨(Agent.debuggable_nodes j cfg).get ⟨_, hlt⟩, ?_, List.get_mem _ _ hlt⟩
    rw [Agent.search_policy, if_neg (Nat.not_lt.mpr h1)]
    simp only [if_pos h2, List.get?_eq_get hlt]

/-- Witness for C6: with `max_debug_depth = 0` and `debug_prob = 1`, the
candidate set characterization and the debug selection hold on a journal
with buggy leaves at depth 0 and depth 1. -/
theorem search_policy_debug_rule_witness :
    (∀ n : Node, n ∈ Agent.debuggable_nodes c6Journal (SearchConfig.mk 0 1 0) ↔
      (n ∈ c6Journal.nodes ∧ n.is_buggy = true ∧ c6Journal.is_leaf n = true ∧
        n.debug_depth ≤ (SearchConfig.mk 0 1 0).max_debug_depth))
    ∧ (Agent.debuggable_nodes c6Journal (SearchConfig.mk 0 1 0) ≠ [] →
      ∃ n : Node, Agent.search_policy c6Journal (SearchConfig.mk 0 1 0) 0 0 = some n ∧
        n ∈ Agent.debuggable_nodes c6Journal (SearchConfig.mk 0 1 0)) :=
  search_policy_debug_rule c6Journal (SearchConfig.mk 0 1 0) 0 0
    (by decide) (by decide)

/-- C8: `plan_and_code_query` with the reference retry bound 3 issues the
same prompt while extraction fails: it returns the extracted (plan, code)
pair of the first attempt on which both parts are non-empty, and after
three failed attempts it falls back to the empty plan with the raw third
completion as code — it is total, never an exception. -/
theorem plan_and_code_query_retry (ec et : String → String)
    (oracle : Nat → String) :
    (∀ k : Nat, k < 3 → extraction_ok ec et (oracle k) = true →
      (∀ i : Nat, i < k → extraction_ok ec et (oracle i) = false) →
      Agent.plan_and_code_query ec et oracle 3 = (et (oracle k), ec (oracle k)))
    ∧ ((∀ i : Nat, i < 3 → extraction_ok ec et (oracle i) = false) →
      Agent.plan_and_code_query ec et oracle 3 = ("", oracle 2)) := by
  constructor
  · intro k hk hok hmin
    interval_cases k
    · simp [Agent.plan_and_code_query, Agent.pacqGo, hok]
    · have h0 : extraction_ok ec et (oracle 0) = false := hmin 0 (by omega)
      simp [Agent.plan_and_code_query, Agent.pacqGo, h0, hok]
    · have h0 : extraction_ok ec et (oracle 0) = false := hmin 0 (by omega)
      have h1 : extraction_ok ec et (oracle 1) = false := hmin 1 (by omega)
      simp [Agent.plan_and_code_query, Agent.pacqGo, h0, h1, hok]
  · intro hall
    have h0 : extraction_ok ec et (oracle 0) = false := hall 0 (by omega)
    have h1 : extraction_ok ec et (oracle 1) = false := hall 1 (by omega)
    have h2 : extraction_ok ec et (oracle 2) = false := hall 2 (by omega)
    simp [Agent.plan_and_code_query, Agent.pacqGo, h0, h1, h2]

/-- Witness for C8: with an identity code extractor and constant plan
extractor the first attempt succeeds and is returned; with an extractor
that always yields the empty string all three attempts fail and the raw
third completion is returned as the code. -/
theorem plan_and_code_query_retry_witness :
    Agent.plan_and_code_query (fun t => t) (fun _ => "plan")
      (fun _ => "print(2)") 3 = ("plan", "print(2)")
    ∧ Agent.plan_and_code_query (fun _ => "") (fun _ => "plan")
      (fun i => if i == 2 then "last raw" else "raw") 3 = ("", "last raw") := by
  constructor
  · exact (plan_and_code_query_retry (fun t => t) (fun _ => "plan")
      (fun _ => "print(2)")).1 0 (by omega) rfl
      (fun i h => absurd h (Nat.not_lt_zero i))
  · exact (plan_and_code_query_retry (fun _ => "") (fun _ => "plan")
      (fun i => if i == 2 then "last raw" else "raw")).2 (fun i _ => rfl)

theorem goodValuedB_spec (mx : Bool) (n : Node) (h : goodValuedB mx n = true) :
    ∃ q : ℚ, n.metric = some (.ordinary (some q) mx) := by
  rcases hm : n.metric with _ | m
  · simp [goodValuedB, hm] at h
  · cases m with
    | worst => simp [goodValuedB, hm] at h
    | ordinary v mx2 =>
      cases v with
      | none => simp [goodValuedB, hm] at h
      | some q =>
        simp only [goodValuedB, hm, beq_iff_eq] at h
        exact ⟨q, by rw [h]⟩

theorem metricBetter_iff_rank (mx : Bool) (x y : Node)
    (hx : x.metric = some .worst ∨ goodValuedB mx x = true)
    (hy : y.metric = some .worst ∨ goodValuedB mx y = true) :
    (metricBetter x.metric y.metric = true ↔ nodeRank mx y < nodeRank mx x) := by
  rcases hx with hx | hx
  · have hrx : nodeRank mx x = ⊥ := by simp [nodeRank, hx]
    rw [hx, hrx]
    rcases hy with hy | hy
    · rw [hy]; simp [metricBetter, MetricValue.betterThan]
    · obtain ⟨p, hp⟩ := goodValuedB_spec mx y hy
      rw [hp]; simp [metricBetter, MetricValue.betterThan]
  · obtain ⟨q, hq⟩ := goodValuedB_spec mx x hx
    have hrx : nodeRank mx x = ((if mx then q else -q : ℚ) : WithBot ℚ) := by
      simp [nodeRank, hq]
    rcases hy with hy | hy
    · have hry : nodeRank mx y = ⊥ := by simp [nodeRank, hy]
      rw [hq, hy, hrx, hry]
      simp [metricBetter, MetricValue.betterThan, WithBot.bot_lt_coe]
    · obtain ⟨p, hp⟩ := goodValuedB_spec mx y hy
      have hry : nodeRank mx y = ((if mx then p else -p : ℚ) : WithBot ℚ) := by
        simp [nodeRank, hp]
      rw [hq, hp, hrx, hry]
      cases mx with
      | true => simp [metricBetter, MetricValue.betterThan, WithBot.coe_lt_coe]
      | false =>
        simp [metricBetter, MetricValue.betterThan, WithBot.coe_lt_coe,
          neg_lt_neg_iff]

theorem foldl_bestStep_spec (mx : Bool) :
    ∀ (l : List Node) (a : Node),
      (∀ x, x ∈ l → (x.metric = some .worst ∨ goodValuedB mx x = true)) →
      (a.metric = some .worst ∨ goodValuedB mx a = true) →
      ∃ b, l.foldl bestStep (some a) = some b ∧ (b = a ∨ b ∈ l)
        ∧ (b.metric = some .worst ∨ goodValuedB mx b = true)
        ∧ nodeRank mx a ≤ nodeRank mx b
        ∧ ∀ x, x ∈ l → nodeRank mx x ≤ nodeRank mx b := by
  intro l
  induction l with
  | nil =>
    intro a _ ha
    exact ⟨a, rfl, Or.inl rfl, ha, le_refl _,
      fun x hx => absurd hx (List.not_mem_nil x)⟩
  | cons x xs ih =>
    intro a hl ha
    have hx := hl x (List.mem_cons_self x xs)
    have hxs : ∀ y, y ∈ xs → (y.metric = some .worst ∨ goodValuedB mx y = true) :=
      fun y hy => hl y (List.mem_cons_of_mem x hy)
    by_cases hb : metricBetter x.metric a.metric = true
    · have hlt : nodeRank mx a < nodeRank mx x :=
        (metricBetter_iff_rank mx x a hx ha).mp hb
      obtain ⟨b, hfold, hmem, hbinv, hle, hall⟩ := ih x hxs hx
      refine ⟨b, ?_, ?_, hbinv, le_trans (le_of_lt hlt) hle, ?_⟩
      · rw [List.foldl_cons]
        have hstep : bestStep (some a) x = some x := by simp [bestStep, hb]
        rw [hstep, hfold]
      · rcases hmem with h | h
        · exact Or.inr (h ▸ List.mem_cons_self x xs)
        · exact Or.inr (List.mem_cons_of_mem x h)
      · intro y hy
        rcases List.mem_cons.mp hy with h | h
        · exact h ▸ hle
        · exact hall y h
    · have hnb : metricBetter x.metric a.metric = false :=
        Bool.eq_false_iff.mpr hb
      have hxa : nodeRank mx x ≤ nodeRank mx a :=
        le_of_not_lt (fun hc => hb ((metricBetter_iff_rank mx x a hx ha).mpr hc))
      obtain ⟨b, hfold, hmem, hbinv, hle, hall⟩ := ih a hxs ha
      refine ⟨b, ?_, ?_, hbinv, hle, ?_⟩
      · rw [List.foldl_cons]
        have hstep : bestStep (some a) x = some a := by simp [bestStep, hnb]
        rw [hstep, hfold]
      · rcases hmem with h | h
        · exact Or.inl h
        · exact Or.inr (List.mem_cons_of_mem x h)
      · intro y hy
        rcases List.mem_cons.mp hy with h | h
        · exact h ▸ le_trans hxa hle
        · exact hall y h

/-- C7: with enough drafts and the debug rule not firing (draw too high or
no debuggable node), the policy drafts when no good node exists, and
otherwise returns `journal.get_best_node()` (without `only_good`), which —
under the invariants `parse_exec_result` maintains (buggy nodes carry the
worst metric; good nodes carry an evaluated metric of one shared polarity)
— is a non-buggy node whose metric is best among the good nodes. -/
theorem search_policy_improve_best (j : Journal) (cfg : SearchConfig)
    (rand : ℚ) (choice : Nat) (mx : Bool)
    (h1 : cfg.num_drafts ≤ j.draft_nodes.length)
    (h2 : ¬ rand < cfg.debug_prob ∨ Agent.debuggable_nodes j cfg = [])
    (hw : ∀ n : Node, n ∈ j.nodes → n.is_buggy = true → n.metric = some .worst)
    (hg : ∀ n : Node, n ∈ j.nodes → n.is_buggy = false → goodValuedB mx n = true) :
    (j.good_nodes = [] → Agent.search_policy j cfg rand choice = Option.none)
    ∧ (j.good_nodes ≠ [] →
      Agent.search_policy j cfg rand choice = j.get_best_node false
      ∧ ∃ b : Node, j.get_best_node false = some b ∧ b.is_buggy = false
        ∧ b ∈ j.good_nodes
        ∧ ∀ g : Node, g ∈ j.good_nodes → metricBetter g.metric b.metric = false) := by
  have hnd : ¬ (j.draft_nodes.length < cfg.num_drafts) := Nat.not_lt.mpr h1
  have hdbg : (if rand < cfg.debug_prob then
      (Agent.debuggable_nodes j cfg).get?
        (choice % (Agent.debuggable_nodes j cfg).length)
    else Option.none) = (Option.none : Option Node) := by
    rcases h2 with h | h
    · rw [if_neg h]
    · rw [h]
      simp
  have hpolicy : Agent.search_policy j cfg rand choice =
      (if j.good_nodes.isEmpty then Option.none else j.get_best_node false) := by
    simp only [Agent.search_policy, if_neg hnd, hdbg]
  constructor
  · intro hge
    rw [hpolicy]
    simp [hge]
  · intro hne
    have hgNe : j.good_nodes.isEmpty = false := by
      simp [List.isEmpty_iff, hne]
    have hpol : Agent.search_policy j cfg rand choice = j.get_best_node false := by
      rw [hpolicy, hgNe]
      simp
    refine ⟨hpol, ?_⟩
    have hnodes : j.nodes ≠ [] := by
      intro h0
      exact hne (by simp [Journal.good_nodes, h0])
    obtain ⟨n0, rest, hcons⟩ := List.exists_cons_of_ne_nil hnodes
    have hinv : ∀ x : Node, x ∈ j.nodes →
        (x.metric = some .worst ∨ goodValuedB mx x = true) := by
      intro x hxm
      cases hbx : x.is_buggy with
      | false => exact Or.inr (hg x hxm hbx)
      | true => exact Or.inl (hw x hxm hbx)
    have hn0 : n0 ∈ j.nodes := by
      rw [hcons]; exact List.mem_cons_self _ _
    have hrest : ∀ x : Node, x ∈ rest → x ∈ j.nodes := by
      intro x hxm
      rw [hcons]; exact List.mem_cons_of_mem _ hxm
    obtain ⟨b, hfold, hmem, _, hle0, hall⟩ :=
      foldl_bestStep_spec mx rest n0
        (fun y hy => hinv y (hrest y hy)) (hinv n0 hn0)
    have hbest : j.get_best_node false = some b := by
      rw [Journal.get_best_node]
      simp only [if_neg (by simp : ¬ false = true)]
      rw [hcons, List.foldl_cons]
      exact hfold
    have hbmem : b ∈ j.nodes := by
      rcases hmem with h | h
      · rw [hcons]; exact h ▸ List.mem_cons_self _ _
      · rw [hcons]; exact List.mem_cons_of_mem _ h
    have halln : ∀ x : Node, x ∈ j.nodes → nodeRank mx x ≤ nodeRank mx b := by
      intro x hxm
      rw [hcons] at hxm
      rcases List.mem_cons.mp hxm with h | h
      · exact h ▸ hle0
      · exact hall x h
    obtain ⟨g0, hg0⟩ := List.exists_mem_of_ne_nil _ hne
    have hg0f := List.mem_filter.mp hg0
    have hg0b : g0.is_buggy = false := by
      have := hg0f.2
      simpa using this
    obtain ⟨q0, hq0⟩ := goodValuedB_spec mx g0 (hg g0 hg0f.1 hg0b)
    have hg0rank : (⊥ : WithBot ℚ) < nodeRank mx g0 := by
      simp only [nodeRank, hq0]
      exact WithBot.bot_lt_coe _
    have hbrank : (⊥ : WithBot ℚ) < nodeRank mx b :=
      lt_of_lt_of_le hg0rank (halln g0 hg0f.1)
    have hbgood : b.is_buggy = false := by
      cases hbb : b.is_buggy with
      | false => rfl
      | true =>
        exfalso
        have hbw : b.metric = some .worst := hw b hbmem hbb
        rw [show nodeRank mx b = ⊥ from by simp [nodeRank, hbw]] at hbrank
        exact absurd hbrank (lt_irrefl _)
    refine ⟨b, hbest, hbgood, List.mem_filter.mpr ⟨hbmem, by simp [hbgood]⟩, ?_⟩
    intro g hgm
    have hgf := List.mem_filter.mp hgm
    have hnotlt : ¬ (nodeRank mx b < nodeRank mx g) := not_lt.mpr (halln g hgf.1)
    cases hbool : metricBetter g.metric b.metric with
    | false => rfl
    | true =>
      exact absurd
        ((metricBetter_iff_rank mx g b (hinv g hgf.1) (hinv b hbmem)).mp hbool)
        hnotlt

/-- Witness for C7: on the sample journal with `debug_prob = 0`, the policy
returns the best node without `only_good`, and that node is good and best
among the good nodes. -/
theorem search_policy_improve_best_witness :
    (c7Journal.good_nodes = [] →
      Agent.search_policy c7Journal (SearchConfig.mk 0 0 0) 0 0 = Option.none)
    ∧ (c7Journal.good_nodes ≠ [] →
      Agent.search_policy c7Journal (SearchConfig.mk 0 0 0) 0 0
        = c7Journal.get_best_node false
      ∧ ∃ b : Node, c7Journal.get_best_node false = some b ∧ b.is_buggy = false
        ∧ b ∈ c7Journal.good_nodes
        ∧ ∀ g : Node, g ∈ c7Journal.good_nodes →
            metricBetter g.metric b.metric = false) :=
  search_policy_improve_best c7Journal (SearchConfig.mk 0 0 0) 0 0 true
    (by decide) (Or.inl (by decide)) (by decide) (by decide)
